import Mathlib

/-!
Verification of the sales-intelligence-tracker core against its
natural-language specification.

The React frontend (`frontend/src/types/index.ts`,
`frontend/src/components/CompanyTable.tsx`) and the SQL schema are embedded
directly.  Scores and hour counts are JavaScript numbers; they are embedded
as rationals.  Calendar dates are embedded at day granularity as integers.
The Python backend (`etl.py`, `db.py`) is not part of the sources; where a
claim depends on it, the missing operation is modelled from the
specification and the definition's doc comment says so.
-/

namespace SalesIntel

/-- Urgency tiers, from `UrgencyLevel` in `frontend/src/types/index.ts`.
The `cold` tier is displayed with the label "Monitor": it is the tier the
specification calls `monitor`. -/
inductive UrgencyLevel where
  | hot
  | warm
  | cold
deriving DecidableEq, Repr

/-- One entry of `URGENCY_THRESHOLDS` in `frontend/src/types/index.ts`. -/
structure UrgencyThreshold where
  min_pain : ℚ
  max_hours : ℚ

/-- `URGENCY_THRESHOLDS.hot` in `frontend/src/types/index.ts`. -/
def URGENCY_THRESHOLDS_hot : UrgencyThreshold :=
  { min_pain := mkRat 7 10, max_hours := 48 }

/-- `URGENCY_THRESHOLDS.warm` in `frontend/src/types/index.ts`
(168 hours = 7 days). -/
def URGENCY_THRESHOLDS_warm : UrgencyThreshold :=
  { min_pain := mkRat 1 2, max_hours := 168 }

/-- `getUrgencyLevel` in `frontend/src/types/index.ts`: hot when the pain
score meets the hot threshold AND the signal age is within the hot window,
warm when the warm threshold AND the warm window both hold, cold
otherwise. -/
def getUrgencyLevel (painScore : ℚ) (signalAgeHours : ℚ) : UrgencyLevel :=
  if painScore ≥ URGENCY_THRESHOLDS_hot.min_pain ∧
      signalAgeHours ≤ URGENCY_THRESHOLDS_hot.max_hours then
    UrgencyLevel.hot
  else if painScore ≥ URGENCY_THRESHOLDS_warm.min_pain ∧
      signalAgeHours ≤ URGENCY_THRESHOLDS_warm.max_hours then
    UrgencyLevel.warm
  else
    UrgencyLevel.cold

/-- The urgency rule as the specification words it (section 4.4): hot if
pain ≥ 0.7 AND age ≤ 48h; warm if pain ≥ 0.5 OR age ≤ 168h; else monitor
(rendered here as `cold`).  Written from the spec, to be compared with
`getUrgencyLevel`, which is written from the code. -/
def specUrgencyLevel (painScore : ℚ) (signalAgeHours : ℚ) : UrgencyLevel :=
  if painScore ≥ mkRat 7 10 ∧ signalAgeHours ≤ 48 then UrgencyLevel.hot
  else if painScore ≥ mkRat 1 2 ∨ signalAgeHours ≤ 168 then UrgencyLevel.warm
  else UrgencyLevel.cold

/-- Tier order used by the monotonicity property: monitor/cold < warm < hot. -/
def urgencyRank : UrgencyLevel → Nat
  | UrgencyLevel.cold => 0
  | UrgencyLevel.warm => 1
  | UrgencyLevel.hot => 2

lemma getUrgencyLevel_eq_hot_iff (p a : ℚ) :
    getUrgencyLevel p a = UrgencyLevel.hot ↔ (mkRat 7 10 ≤ p ∧ a ≤ 48) := by
  unfold getUrgencyLevel URGENCY_THRESHOLDS_hot URGENCY_THRESHOLDS_warm
  split_ifs with h1 h2 <;> simp_all [ge_iff_le]

lemma getUrgencyLevel_eq_warm_iff (p a : ℚ) :
    getUrgencyLevel p a = UrgencyLevel.warm ↔
      (¬(mkRat 7 10 ≤ p ∧ a ≤ 48) ∧ mkRat 1 2 ≤ p ∧ a ≤ 168) := by
  unfold getUrgencyLevel URGENCY_THRESHOLDS_hot URGENCY_THRESHOLDS_warm
  split_ifs with h1 h2 <;> simp_all [ge_iff_le]

lemma getUrgencyLevel_eq_cold_iff (p a : ℚ) :
    getUrgencyLevel p a = UrgencyLevel.cold ↔
      (¬(mkRat 7 10 ≤ p ∧ a ≤ 48) ∧ ¬(mkRat 1 2 ≤ p ∧ a ≤ 168)) := by
  unfold getUrgencyLevel URGENCY_THRESHOLDS_hot URGENCY_THRESHOLDS_warm
  split_ifs with h1 h2 <;> simp_all [ge_iff_le]

/-- C1: the claim as stated fails on the code.  At pain score 0.6 and age
200h the spec's rule ("warm if pain ≥ 0.5 OR age ≤ 168h") yields warm, but
`getUrgencyLevel` requires BOTH conditions for warm and returns
cold/monitor. -/
theorem C1_counterexample :
    specUrgencyLevel (mkRat 6 10) 200 = UrgencyLevel.warm ∧
    getUrgencyLevel (mkRat 6 10) 200 = UrgencyLevel.cold ∧
    getUrgencyLevel (mkRat 6 10) 200 ≠ specUrgencyLevel (mkRat 6 10) 200 := by
  refine ⟨?_, ?_, ?_⟩ <;> decide

/-- C1 (amended): the tier is hot iff pain ≥ 0.7 and age ≤ 48h; warm iff
not hot, pain ≥ 0.5 AND age ≤ 168h; and cold (monitor) otherwise. -/
theorem C1_urgency_characterization (p a : ℚ) :
    (getUrgencyLevel p a = UrgencyLevel.hot ↔ (mkRat 7 10 ≤ p ∧ a ≤ 48)) ∧
    (getUrgencyLevel p a = UrgencyLevel.warm ↔
      (¬(mkRat 7 10 ≤ p ∧ a ≤ 48) ∧ mkRat 1 2 ≤ p ∧ a ≤ 168)) ∧
    (getUrgencyLevel p a = UrgencyLevel.cold ↔
      (¬(mkRat 7 10 ≤ p ∧ a ≤ 48) ∧ ¬(mkRat 1 2 ≤ p ∧ a ≤ 168))) :=
  ⟨getUrgencyLevel_eq_hot_iff p a, getUrgencyLevel_eq_warm_iff p a,
   getUrgencyLevel_eq_cold_iff p a⟩

/-- C6: with monitor < warm < hot, the tier computed by `getUrgencyLevel`
is non-decreasing in the pain score at fixed age, and non-increasing in
the age at fixed pain score. -/
theorem C6_urgency_monotone (p₁ p₂ a₁ a₂ : ℚ) :
    (p₁ ≤ p₂ →
      urgencyRank (getUrgencyLevel p₁ a₁) ≤ urgencyRank (getUrgencyLevel p₂ a₁)) ∧
    (a₁ ≤ a₂ →
      urgencyRank (getUrgencyLevel p₁ a₂) ≤ urgencyRank (getUrgencyLevel p₁ a₁)) := by
  constructor
  · intro h
    cases hg : getUrgencyLevel p₁ a₁ with
    | cold => simp [urgencyRank]
    | warm =>
      have hw := (getUrgencyLevel_eq_warm_iff p₁ a₁).mp hg
      cases hg2 : getUrgencyLevel p₂ a₁ with
      | hot => simp [urgencyRank]
      | warm => simp [urgencyRank]
      | cold =>
        exact absurd ⟨le_trans hw.2.1 h, hw.2.2⟩
          ((getUrgencyLevel_eq_cold_iff p₂ a₁).mp hg2).2
    | hot =>
      have hh := (getUrgencyLevel_eq_hot_iff p₁ a₁).mp hg
      have : getUrgencyLevel p₂ a₁ = UrgencyLevel.hot :=
        (getUrgencyLevel_eq_hot_iff p₂ a₁).mpr ⟨le_trans hh.1 h, hh.2⟩
      simp [this, urgencyRank]
  · intro h
    cases hg : getUrgencyLevel p₁ a₂ with
    | cold => simp [urgencyRank]
    | warm =>
      have hw := (getUrgencyLevel_eq_warm_iff p₁ a₂).mp hg
      cases hg2 : getUrgencyLevel p₁ a₁ with
      | hot => simp [urgencyRank]
      | warm => simp [urgencyRank]
      | cold =>
        exact absurd ⟨hw.2.1, le_trans h hw.2.2⟩
          ((getUrgencyLevel_eq_cold_iff p₁ a₁).mp hg2).2
    | hot =>
      have hh := (getUrgencyLevel_eq_hot_iff p₁ a₂).mp hg
      have : getUrgencyLevel p₁ a₁ = UrgencyLevel.hot :=
        (getUrgencyLevel_eq_hot_iff p₁ a₁).mpr ⟨hh.1, le_trans h hh.2⟩
      simp [this, urgencyRank]

/-- C6 witness: both parts of the monotonicity theorem applied at concrete
inputs. -/
theorem C6_urgency_monotone_witness :
    urgencyRank (getUrgencyLevel 0 10) ≤ urgencyRank (getUrgencyLevel 1 10) ∧
    urgencyRank (getUrgencyLevel 1 60) ≤ urgencyRank (getUrgencyLevel 1 10) :=
  ⟨(C6_urgency_monotone 0 1 10 10).1 (by decide),
   (C6_urgency_monotone 1 1 10 60).2 (by decide)⟩

/-- IR cycle stages, from `IRCycleStage` in
`frontend/src/components/CompanyTable.tsx`. -/
inductive IRCycleStage where
  | quiet_period
  | earnings_week
  | open_window
  | mid_quarter
  | unknown
deriving DecidableEq, Repr

/-- `opt !== null && test(opt)` on a nullable number, as used by the guards
of `calculateIRCycle` in `frontend/src/components/CompanyTable.tsx`. -/
def optTest (o : Option Int) (p : Int → Bool) : Bool :=
  match o with
  | none => false
  | some n => p n

/-- `calculateIRCycle` in `frontend/src/components/CompanyTable.tsx`,
reduced to its stage result.  Calendar dates are whole days (the code
parses date-only strings at UTC midnight), so the floored millisecond
divisions `daysSinceLast` and `daysUntilNext` are exact integer
differences of day numbers.  The guards are checked in source order:
quiet period, earnings week, open window, mid-quarter, unknown. -/
def calculateIRCycle (lastEarnings nextEarnings : Option Int) (today : Int) :
    IRCycleStage :=
  let daysSinceLast : Option Int := lastEarnings.map (fun d => today - d)
  let daysUntilNext : Option Int := nextEarnings.map (fun d => d - today)
  if optTest daysUntilNext (fun n => n ≤ 14) then IRCycleStage.quiet_period
  else if optTest daysSinceLast (fun n => 0 ≤ n && n ≤ 7) then IRCycleStage.earnings_week
  else if optTest daysSinceLast (fun n => 8 ≤ n && n ≤ 45) then IRCycleStage.open_window
  else if optTest daysSinceLast (fun n => 45 < n) then IRCycleStage.mid_quarter
  else IRCycleStage.unknown

/-- The IR-cycle rule as the specification words it (section 4.4),
directly over the nullable day counts: quiet_period if
days-to-next-earnings ≤ 14; else earnings_week if 0 ≤ days-since-last ≤ 7;
else open_window if 8 ≤ days-since-last ≤ 45; else mid_quarter if
days-since-last > 45; else unknown. -/
def specIRCycleStage (daysSinceLast daysUntilNext : Option Int) : IRCycleStage :=
  match daysUntilNext, daysSinceLast with
  | some n, _ =>
    if n ≤ 14 then IRCycleStage.quiet_period
    else specIRCycleStage_fromLast daysSinceLast
  | none, _ => specIRCycleStage_fromLast daysSinceLast
where
  specIRCycleStage_fromLast : Option Int → IRCycleStage
    | none => IRCycleStage.unknown
    | some d =>
      if 0 ≤ d ∧ d ≤ 7 then IRCycleStage.earnings_week
      else if 8 ≤ d ∧ d ≤ 45 then IRCycleStage.open_window
      else if 45 < d then IRCycleStage.mid_quarter
      else IRCycleStage.unknown

/-- C2: `calculateIRCycle` implements exactly the spec's precedence order
over the day counts derived from its nullable date inputs, and Scenario E
(last earnings 10 days ago, next earnings 80 days out) yields
open_window, on every reference day. -/
theorem C2_ir_cycle_matches_spec :
    (∀ lastEarnings nextEarnings : Option Int, ∀ today : Int,
      calculateIRCycle lastEarnings nextEarnings today =
        specIRCycleStage (lastEarnings.map (fun d => today - d))
          (nextEarnings.map (fun d => d - today))) ∧
    (∀ today : Int,
      calculateIRCycle (some (today - 10)) (some (today + 80)) today =
        IRCycleStage.open_window) := by
  constructor
  · intro lastEarnings nextEarnings today
    cases lastEarnings <;> cases nextEarnings <;>
      simp only [calculateIRCycle, specIRCycleStage,
        specIRCycleStage.specIRCycleStage_fromLast, optTest, Option.map_none,
        Option.map_some] <;>
      split_ifs <;> simp_all <;> split_ifs <;>
      first | rfl | (simp_all; omega) | omega
  · intro today
    simp only [calculateIRCycle, optTest, Option.map_some]
    split_ifs <;> simp_all

/-- C10: `calculateIRCycle` is total — every input pair yields exactly one
of the five stages; it yields `unknown` when both dates are absent, and
when the last-earnings date is absent and the quiet-period rule does not
fire (next absent or more than 14 days out); and it yields `quiet_period`
whenever days-until-next ≤ 14 — including a next-earnings date already in
the past — regardless of the last-earnings date. -/
theorem C10_ir_cycle_totality (lastEarnings nextEarnings : Option Int)
    (today : Int) :
    (calculateIRCycle lastEarnings nextEarnings today ∈
      [IRCycleStage.quiet_period, IRCycleStage.earnings_week,
       IRCycleStage.open_window, IRCycleStage.mid_quarter,
       IRCycleStage.unknown]) ∧
    (calculateIRCycle none none today = IRCycleStage.unknown) ∧
    (∀ n, nextEarnings = some n → 14 < n - today → lastEarnings = none →
      calculateIRCycle lastEarnings nextEarnings today = IRCycleStage.unknown) ∧
    (∀ n, nextEarnings = some n → n - today ≤ 14 →
      calculateIRCycle lastEarnings nextEarnings today = IRCycleStage.quiet_period) := by
  refine ⟨?_, ?_, ?_, ?_⟩
  · cases calculateIRCycle lastEarnings nextEarnings today <;> simp
  · simp [calculateIRCycle, optTest]
  · rintro n rfl hn rfl
    simp only [calculateIRCycle, optTest, Option.map_some, Option.map_none]
    split_ifs <;> simp_all
    omega
  · rintro n rfl hn
    simp only [calculateIRCycle, optTest, Option.map_some]
    split_ifs <;> simp_all

/-- C10 witness: the totality theorem applied at concrete inputs,
including a next-earnings date 5 days in the past (days-until-next = -5)
with a last-earnings date far in the past. -/
theorem C10_ir_cycle_totality_witness :
    calculateIRCycle none (some 120) 100 = IRCycleStage.unknown ∧
    calculateIRCycle (some 0) (some 95) 100 = IRCycleStage.quiet_period :=
  ⟨(C10_ir_cycle_totality none (some 120) 100).2.2.1 120 rfl (by decide) rfl,
   (C10_ir_cycle_totality (some 0) (some 95) 100).2.2.2 95 rfl (by decide)⟩

/-- `PipelineStats` as declared in `frontend/src/types/index.ts`: the
shape of the `RunPipeline` (`POST /api/pipeline/run`) response consumed by
the frontend. -/
structure PipelineStats where
  companies : Nat
  articles_fetched : Nat
  articles_new : Nat
  signals_created : Nat
deriving DecidableEq, Repr

/-- The field names of the `PipelineStats` interface in
`frontend/src/types/index.ts`, in declaration order. -/
def pipelineStatsFields : List String :=
  ["companies", "articles_fetched", "articles_new", "signals_created"]

/-- C3: the claim as stated fails on the declared interface — the
`PipelineStats` shape returned by the pipeline run carries no `errors`
field. -/
theorem C3_counterexample : "errors" ∉ pipelineStatsFields := by
  decide

/-- C3 (amended): a pipeline run always answers with a stats object of
exactly the four counters companies, articles_fetched, articles_new and
signals_created; the four counters determine the whole stats value, so
the stats carry no per-company error list. -/
theorem C3_pipeline_stats_shape :
    ("companies" ∈ pipelineStatsFields ∧ "articles_fetched" ∈ pipelineStatsFields ∧
     "articles_new" ∈ pipelineStatsFields ∧ "signals_created" ∈ pipelineStatsFields ∧
     "errors" ∉ pipelineStatsFields) ∧
    (∀ a b : PipelineStats, a.companies = b.companies →
      a.articles_fetched = b.articles_fetched → a.articles_new = b.articles_new →
      a.signals_created = b.signals_created → a = b) := by
  refine ⟨by decide, ?_⟩
  rintro ⟨c, f, n, s⟩ ⟨c', f', n', s'⟩ rfl rfl rfl rfl
  rfl

/-- C3 witness: the determinacy half applied to a concrete stats value. -/
theorem C3_pipeline_stats_shape_witness :
    (⟨1, 2, 3, 4⟩ : PipelineStats) = ⟨1, 2, 3, 4⟩ :=
  C3_pipeline_stats_shape.2 ⟨1, 2, 3, 4⟩ ⟨1, 2, 3, 4⟩ rfl rfl rfl rfl

/-- The `CompanyFinancials` fields the company table reads, from
`frontend/src/types/index.ts`: the 7-day price change is nullable, and the
earnings dates are nullable date-only strings, embedded as day numbers. -/
structure CompanyFinancials where
  price_change_7d : Option ℚ
  last_earnings : Option Int
  next_earnings : Option Int
deriving DecidableEq, Repr

/-- `StockMovementFilter` from `frontend/src/components/Filters.tsx`. -/
inductive StockMovementFilter where
  | all
  | positive
  | negative
deriving DecidableEq, Repr

/-- One row of the company table: the `CompanyPainSummary` fields used by
`CompanyTable.tsx` (identity plus the aggregated pain data; the embedded
per-signal list is kept separately). -/
structure CompanyPainSummary where
  company_id : Nat
  max_pain_score : ℚ
  max_pain_summary : String
  signal_count : Nat
  newest_signal_age_hours : ℚ
deriving DecidableEq, Repr

/-- The body of the stock-movement `result.filter` callback in
`filteredData` of `frontend/src/components/CompanyTable.tsx`:
`!fin?.price_change_7d` rejects a missing financials record, a null
change, and a change of exactly 0 (JavaScript falsiness); then `positive`
keeps `price_change_7d >= 0` and `negative` keeps `price_change_7d < 0`. -/
def stockMovementPass (filter : StockMovementFilter)
    (fin : Option CompanyFinancials) : Bool :=
  match fin.bind (fun f => f.price_change_7d) with
  | none => false
  | some p =>
    if p = 0 then false
    else
      match filter with
      | StockMovementFilter.positive => decide (p ≥ 0)
      | StockMovementFilter.negative => decide (p < 0)
      | StockMovementFilter.all => true

/-- The stock-movement stage of `filteredData` in
`frontend/src/components/CompanyTable.tsx`: applied only when the filter
is not `all`. -/
def filterByStockMovement (filter : StockMovementFilter)
    (rows : List CompanyPainSummary)
    (financials : Nat → Option CompanyFinancials) : List CompanyPainSummary :=
  if filter = StockMovementFilter.all then rows
  else rows.filter (fun r => stockMovementPass filter (financials r.company_id))

/-- C9: under the `positive` or `negative` stock-movement filter, a
company with no financials record, a null 7-day price change, or a 7-day
price change of exactly 0 never appears in the filtered table — for
`positive` (condition `price_change_7d >= 0`) included, because the
JavaScript falsiness test rejects 0 before the comparison runs. -/
theorem C9_stock_filter_excludes_zero (filter : StockMovementFilter)
    (hf : filter = StockMovementFilter.positive ∨
          filter = StockMovementFilter.negative)
    (rows : List CompanyPainSummary)
    (financials : Nat → Option CompanyFinancials)
    (r : CompanyPainSummary)
    (hr : financials r.company_id = none ∨
          (financials r.company_id).bind (fun f => f.price_change_7d) = none ∨
          (financials r.company_id).bind (fun f => f.price_change_7d) = some 0) :
    r ∉ filterByStockMovement filter rows financials := by
  intro hmem
  have hne : filter ≠ StockMovementFilter.all := by
    rcases hf with rfl | rfl <;> simp
  rw [filterByStockMovement, if_neg hne] at hmem
  have hpass := (List.mem_filter.mp hmem).2
  rcases hr with h | h | h
  · simp [stockMovementPass, h] at hpass
  · simp [stockMovementPass, h] at hpass
  · simp [stockMovementPass, h] at hpass

/-- C9 witness: with one row whose 7-day price change is exactly 0, the
`positive` filter removes it. -/
theorem C9_stock_filter_excludes_zero_witness :
    (⟨1, 0, "", 0, 0⟩ : CompanyPainSummary) ∉
      filterByStockMovement StockMovementFilter.positive
        [⟨1, 0, "", 0, 0⟩]
        (fun _ => some ⟨some 0, none, none⟩) :=
  C9_stock_filter_excludes_zero StockMovementFilter.positive (Or.inl rfl)
    [⟨1, 0, "", 0, 0⟩] (fun _ => some ⟨some 0, none, none⟩)
    ⟨1, 0, "", 0, 0⟩ (Or.inr (Or.inr rfl))

/-- The closed signal-type enum, from `SignalType` in
`frontend/src/types/index.ts` (matching the backend `config.py` table). -/
inductive SignalType where
  | activist_risk
  | analyst_negative
  | earnings_miss
  | leadership_change
  | governance_issue
  | esg_negative
  | stock_pressure
  | capital_stress
  | peer_pressure
  | neutral
deriving DecidableEq, Repr

/-- An article fetched for one company: the fields of the `articles`
table in `schema.sql` that the core reads (the title feeds
classification; the system-wide-unique url drives deduplication). -/
structure Article where
  id : Nat
  company_id : Nat
  title : String
  url : String
deriving DecidableEq, Repr

/-- Modelled from the spec: the Deduplicator (section 4.1) of the missing
backend `etl.py` — "Input: newly fetched articles + set of known URLs for
the company.  Output: subset not already known.  Pure, no side effects." -/
def dedup (articles : List Article) (known : List String) : List Article :=
  articles.filter (fun a => !(known.contains a.url))

/-- C8: the deduplicator's output contains no article with a known URL,
and re-running it with the output URLs folded into the known set yields
the empty list. -/
theorem C8_dedup_idempotent (A : List Article) (S : List String) :
    (∀ a ∈ dedup A S, a.url ∉ S) ∧
    dedup A (S ++ (dedup A S).map (fun a => a.url)) = [] := by
  constructor
  · intro a ha
    have h := (List.mem_filter.mp ha).2
    simpa using h
  · rw [dedup, List.filter_eq_nil_iff]
    intro a ha
    have hmem : a.url ∈ S ++ (dedup A S).map (fun a => a.url) := by
      by_cases h : a.url ∈ S
      · exact List.mem_append.mpr (Or.inl h)
      · refine List.mem_append.mpr (Or.inr (List.mem_map.mpr ⟨a, ?_, rfl⟩))
        rw [dedup, List.mem_filter]
        exact ⟨ha, by simpa using h⟩
    simp [hmem]

/-- C8 witness: both halves applied to a one-article input whose URL is
not yet known. -/
theorem C8_dedup_idempotent_witness :
    (⟨1, 1, "t", "u"⟩ : Article).url ∉ ["v"] ∧
    dedup [⟨1, 1, "t", "u"⟩]
      (["v"] ++ (dedup [⟨1, 1, "t", "u"⟩] ["v"]).map (fun a => a.url)) = [] :=
  ⟨(C8_dedup_idempotent [⟨1, 1, "t", "u"⟩] ["v"]).1 ⟨1, 1, "t", "u"⟩ (by decide),
   (C8_dedup_idempotent [⟨1, 1, "t", "u"⟩] ["v"]).2⟩

/-- A per-article classification result: one {summary, signal_type,
relevance_score, pain_score} per input article, as in the section 4.2
contract and the classification prompt of the backend plan. -/
structure ClassificationResult where
  summary : String
  signal_type : SignalType
  relevance_score : ℚ
  pain_score : ℚ
deriving DecidableEq, Repr

/-- Modelled from the spec: the per-article failure default of the
missing batch classifier in `etl.py` (section 4.2) — "an individual
failure degrades only that article to neutral/0.0/0.0". -/
def fallbackResult (_a : Article) : ClassificationResult :=
  { summary := "", signal_type := SignalType.neutral,
    relevance_score := 0, pain_score := 0 }

/-- Modelled from the spec: one individual classification with fallback
(section 4.2, missing `etl.py`) — the external `ClassifyOne` call either
answers (`some`) or fails (`none`), and a failure yields the neutral
default for that article only. -/
def classifyOne (singleOracle : Article → Option ClassificationResult)
    (a : Article) : ClassificationResult :=
  (singleOracle a).getD (fallbackResult a)

/-- Modelled from the spec: classification of one batch (section 4.2,
missing `etl.py`) — the external `ClassifyBatch` call either fails
(transport error or unparseable response, `none`) or answers with an
entry list; a failure, like an entry-count mismatch, falls back to
classifying each article of the batch individually with the same
rubric. -/
def classifyChunk
    (batchOracle : List Article → Option (List ClassificationResult))
    (singleOracle : Article → Option ClassificationResult)
    (chunk : List Article) : List ClassificationResult :=
  match batchOracle chunk with
  | some results =>
    if results.length = chunk.length then results
    else chunk.map (classifyOne singleOracle)
  | none => chunk.map (classifyOne singleOracle)

/-- The spec's default batch size (section 4.2). -/
def BATCH_SIZE : Nat := 8

/-- Consecutive chunks of at most `n` elements; the fuel argument starts
at the list length. -/
def chunkedAux {α : Type} (n : Nat) : Nat → List α → List (List α)
  | 0, _ => []
  | _ + 1, [] => []
  | fuel + 1, x :: xs => (x :: xs).take n :: chunkedAux n fuel ((x :: xs).drop n)

/-- Splitting a work list into consecutive chunks of `n`. -/
def chunked {α : Type} (n : Nat) (l : List α) : List (List α) :=
  chunkedAux n l.length l

/-- Modelled from the spec: batch-then-fallback classification of one
company's article list (sections 4.2 and 4.6, missing `etl.py`) —
articles are classified in consecutive batches of `BATCH_SIZE`, each
batch independently. -/
def classifyAll
    (batchOracle : List Article → Option (List ClassificationResult))
    (singleOracle : Article → Option ClassificationResult)
    (articles : List Article) : List ClassificationResult :=
  ((chunked BATCH_SIZE articles).map (classifyChunk batchOracle singleOracle)).flatten

lemma classifyChunk_length (batchOracle) (singleOracle) (chunk : List Article) :
    (classifyChunk batchOracle singleOracle chunk).length = chunk.length := by
  unfold classifyChunk
  cases batchOracle chunk with
  | none => simp
  | some results => dsimp only; split_ifs with h <;> simp [h]

lemma chunkedAux_fuel_eq {α : Type} (n : Nat) (hn : 0 < n) :
    ∀ fuel₁ fuel₂ (l : List α), l.length ≤ fuel₁ → l.length ≤ fuel₂ →
      chunkedAux n fuel₁ l = chunkedAux n fuel₂ l := by
  intro fuel₁
  induction fuel₁ with
  | zero =>
    intro fuel₂ l h₁ _
    have : l = [] := List.length_eq_zero.mp (Nat.le_zero.mp h₁)
    subst this
    cases fuel₂ <;> rfl
  | succ f ih =>
    intro fuel₂ l h₁ h₂
    cases l with
    | nil => cases fuel₂ <;> rfl
    | cons x xs =>
      cases fuel₂ with
      | zero => simp at h₂
      | succ f₂ =>
        simp only [chunkedAux]
        congr 1
        apply ih
        · simp only [List.length_drop, List.length_cons] at *
          omega
        · simp only [List.length_drop, List.length_cons] at *
          omega

lemma chunkedAux_join {α : Type} (n : Nat) (hn : 0 < n) :
    ∀ fuel (l : List α), l.length ≤ fuel → (chunkedAux n fuel l).flatten = l := by
  intro fuel
  induction fuel with
  | zero =>
    intro l h
    have : l = [] := List.length_eq_zero.mp (Nat.le_zero.mp h)
    subst this
    rfl
  | succ f ih =>
    intro l h
    cases l with
    | nil => rfl
    | cons x xs =>
      simp only [chunkedAux, List.flatten_cons]
      rw [ih]
      · exact List.take_append_drop n (x :: xs)
      · simp only [List.length_drop, List.length_cons] at *
        omega

lemma chunked_join {α : Type} (n : Nat) (hn : 0 < n) (l : List α) :
    (chunked n l).flatten = l :=
  chunkedAux_join n hn l.length l le_rfl

lemma chunked_cons_step {α : Type} (n : Nat) (hn : 0 < n) (l : List α)
    (hl : l ≠ []) : chunked n l = l.take n :: chunked n (l.drop n) := by
  cases l with
  | nil => exact absurd rfl hl
  | cons x xs =>
    show chunkedAux n (xs.length + 1) (x :: xs) = _
    simp only [chunkedAux]
    congr 1
    exact chunkedAux_fuel_eq n hn xs.length ((x :: xs).drop n).length _
      (by simp only [List.length_drop, List.length_cons]; omega) le_rfl

lemma chunked_append {α : Type} (n : Nat) (hn : 0 < n) :
    ∀ (k : Nat) (l₁ l₂ : List α), l₁.length = n * k →
      chunked n (l₁ ++ l₂) = chunked n l₁ ++ chunked n l₂ := by
  intro k
  induction k with
  | zero =>
    intro l₁ l₂ h
    have : l₁ = [] := List.length_eq_zero.mp (by omega)
    subst this
    simp [chunked, chunkedAux]
  | succ k ih =>
    intro l₁ l₂ h
    rw [Nat.mul_succ] at h
    have hlen : n ≤ l₁.length := by omega
    have h1 : l₁ ≠ [] := by
      intro e
      subst e
      simp at h
      omega
    have h12 : (l₁ ++ l₂) ≠ [] := by
      intro e
      exact h1 (List.append_eq_nil.mp e).1
    rw [chunked_cons_step n hn (l₁ ++ l₂) h12, chunked_cons_step n hn l₁ h1,
      List.take_append_of_le_length hlen, List.drop_append_of_le_length hlen,
      List.cons_append]
    congr 1
    exact ih (l₁.drop n) l₂ (by simp only [List.length_drop]; omega)

/-- C7: for every pair of classification oracles — the batch call may
fail or return a list of the wrong length, an individual call may fail —
every input article yields exactly one classification result (output
length equals input length, no drops, no duplicates); article lists
split at a batch boundary classify independently, so one batch's failure
never affects another batch; a failed or mismatched-length batch falls
back to classifying each of its articles individually with the same
rubric; and an individual failure degrades exactly that article to the
neutral default while an individual success is used as answered. -/
theorem C7_batch_fallback_total
    (batchOracle : List Article → Option (List ClassificationResult))
    (singleOracle : Article → Option ClassificationResult) :
    (∀ articles,
      (classifyAll batchOracle singleOracle articles).length = articles.length) ∧
    (∀ l₁ l₂, BATCH_SIZE ∣ l₁.length →
      classifyAll batchOracle singleOracle (l₁ ++ l₂) =
        classifyAll batchOracle singleOracle l₁ ++
          classifyAll batchOracle singleOracle l₂) ∧
    (∀ chunk, batchOracle chunk = none →
      classifyChunk batchOracle singleOracle chunk =
        chunk.map (classifyOne singleOracle)) ∧
    (∀ chunk results, batchOracle chunk = some results →
      results.length ≠ chunk.length →
      classifyChunk batchOracle singleOracle chunk =
        chunk.map (classifyOne singleOracle)) ∧
    (∀ a, singleOracle a = none → classifyOne singleOracle a = fallbackResult a) ∧
    (∀ a r, singleOracle a = some r → classifyOne singleOracle a = r) := by
  refine ⟨?_, ?_, ?_, ?_, ?_, ?_⟩
  · intro articles
    unfold classifyAll
    have hjoin : ∀ chunks : List (List Article),
        ((chunks.map (classifyChunk batchOracle singleOracle)).flatten).length =
          chunks.flatten.length := by
      intro chunks
      induction chunks with
      | nil => rfl
      | cons c cs ih => simp [classifyChunk_length, ih]
    rw [hjoin, chunked_join BATCH_SIZE (by decide)]
  · rintro l₁ l₂ ⟨k, hk⟩
    unfold classifyAll
    rw [chunked_append BATCH_SIZE (by decide) k l₁ l₂ hk, List.map_append,
      List.flatten_append]
  · intro chunk h
    unfold classifyChunk
    rw [h]
  · intro chunk results h hne
    unfold classifyChunk
    rw [h]
    exact if_neg hne
  · intro a h
    unfold classifyOne
    rw [h]
    rfl
  · intro a r h
    unfold classifyOne
    rw [h]
    rfl

/-- C7 witness: the batch-boundary independence applied to a full batch
of eight articles followed by one more, and the fallback equations
applied under concrete always-failing oracles. -/
theorem C7_batch_fallback_total_witness :
    (classifyAll (fun _ => none) (fun _ => none)
        (List.replicate 8 (⟨0, 0, "", ""⟩ : Article) ++ [⟨1, 1, "t", "u"⟩]) =
      classifyAll (fun _ => none) (fun _ => none)
          (List.replicate 8 (⟨0, 0, "", ""⟩ : Article)) ++
        classifyAll (fun _ => none) (fun _ => none) [⟨1, 1, "t", "u"⟩]) ∧
    classifyOne (fun _ => none) ⟨1, 1, "t", "u"⟩ =
      fallbackResult ⟨1, 1, "t", "u"⟩ :=
  ⟨(C7_batch_fallback_total (fun _ => none) (fun _ => none)).2.1
      (List.replicate 8 ⟨0, 0, "", ""⟩) [⟨1, 1, "t", "u"⟩] (by decide),
   (C7_batch_fallback_total (fun _ => none) (fun _ => none)).2.2.2.2.1
      ⟨1, 1, "t", "u"⟩ rfl⟩

/-- Modelled from the spec: the Relevance Override (section 4.3) of the
missing backend — applied once, post-classification, pre-persistence, on
both batch and fallback paths: "if the title matches a configured keyword
... force signal_type=neutral, pain_score=0.0 regardless of model
output"; the configured keyword list is abstracted as a predicate on
titles, and only signal_type and pain_score are reset. -/
def relevanceOverride (keywordMatch : String → Bool) (title : String)
    (c : ClassificationResult) : ClassificationResult :=
  if keywordMatch title then
    { c with signal_type := SignalType.neutral, pain_score := 0 }
  else c

/-- Modelled from the spec: the signals persisted by one company run
(section 4.6, missing `etl.py`) — classify the deduplicated articles in
batches with fallback, then apply the relevance override to each
article's result before persistence. -/
def persistedSignals (keywordMatch : String → Bool)
    (batchOracle : List Article → Option (List ClassificationResult))
    (singleOracle : Article → Option ClassificationResult)
    (articles : List Article) : List ClassificationResult :=
  (articles.zip (classifyAll batchOracle singleOracle articles)).map
    (fun p => relevanceOverride keywordMatch p.1.title p.2)

/-- The section 3 invariant on signal rows: the type is `neutral` exactly
when the pain score is 0.0. -/
def neutralInvariant (c : ClassificationResult) : Prop :=
  c.signal_type = SignalType.neutral ↔ c.pain_score = 0

lemma neutralInvariant_fallbackResult (a : Article) :
    neutralInvariant (fallbackResult a) :=
  ⟨fun _ => rfl, fun _ => rfl⟩

lemma neutralInvariant_relevanceOverride (keywordMatch : String → Bool)
    (t : String) (c : ClassificationResult) (hc : neutralInvariant c) :
    neutralInvariant (relevanceOverride keywordMatch t c) := by
  unfold relevanceOverride
  split_ifs with h
  · exact ⟨fun _ => rfl, fun _ => rfl⟩
  · exact hc

lemma neutralInvariant_classifyAll
    (batchOracle : List Article → Option (List ClassificationResult))
    (singleOracle : Article → Option ClassificationResult)
    (hbatch : ∀ chunk results, batchOracle chunk = some results →
      ∀ c ∈ results, neutralInvariant c)
    (hsingle : ∀ a r, singleOracle a = some r → neutralInvariant r)
    (articles : List Article) :
    ∀ c ∈ classifyAll batchOracle singleOracle articles, neutralInvariant c := by
  intro c hc
  unfold classifyAll at hc
  obtain ⟨res, hres, hcres⟩ := List.mem_flatten.mp hc
  obtain ⟨chunk, _, rfl⟩ := List.mem_map.mp hres
  unfold classifyChunk at hcres
  have fromSingle : c ∈ chunk.map (classifyOne singleOracle) →
      neutralInvariant c := by
    intro hm
    obtain ⟨a, _, rfl⟩ := List.mem_map.mp hm
    unfold classifyOne
    cases hs : singleOracle a with
    | none => exact neutralInvariant_fallbackResult a
    | some r => exact hsingle a r hs
  cases hb : batchOracle chunk with
  | none =>
    rw [hb] at hcres
    exact fromSingle hcres
  | some results =>
    rw [hb] at hcres
    dsimp only at hcres
    by_cases hlen : results.length = chunk.length
    · rw [if_pos hlen] at hcres
      exact hbatch chunk results hb c hcres
    · rw [if_neg hlen] at hcres
      exact fromSingle hcres

/-- C4: provided the external classifier honours the section 3 invariant
on the results it answers with, every persisted signal satisfies
signal_type = neutral ⟺ pain_score = 0; and every core-side operation
that creates or overwrites classification results preserves the
invariant — the individual-failure default satisfies it outright, and
the relevance override (the one permitted overwrite) maps invariant
results to invariant results. -/
theorem C4_neutral_iff_zero_pain (keywordMatch : String → Bool)
    (batchOracle : List Article → Option (List ClassificationResult))
    (singleOracle : Article → Option ClassificationResult)
    (hbatch : ∀ chunk results, batchOracle chunk = some results →
      ∀ c ∈ results, neutralInvariant c)
    (hsingle : ∀ a r, singleOracle a = some r → neutralInvariant r) :
    (∀ articles, ∀ c ∈ persistedSignals keywordMatch batchOracle singleOracle
      articles, neutralInvariant c) ∧
    (∀ a, neutralInvariant (fallbackResult a)) ∧
    (∀ t c, neutralInvariant c →
      neutralInvariant (relevanceOverride keywordMatch t c)) := by
  refine ⟨?_, neutralInvariant_fallbackResult,
    neutralInvariant_relevanceOverride keywordMatch⟩
  intro articles c hc
  unfold persistedSignals at hc
  obtain ⟨⟨a, r⟩, hp, rfl⟩ := List.mem_map.mp hc
  have hr : r ∈ classifyAll batchOracle singleOracle articles :=
    (List.of_mem_zip hp).2
  exact neutralInvariant_relevanceOverride keywordMatch a.title r
    (neutralInvariant_classifyAll batchOracle singleOracle hbatch hsingle
      articles r hr)

/-- C4 witness: the theorem applied under concrete always-failing oracles
(whose hypotheses hold vacuously), at a one-article input whose title
matches the configured keyword; the article's one persisted signal
satisfies the invariant. -/
theorem C4_neutral_iff_zero_pain_witness :
    neutralInvariant ⟨"", SignalType.neutral, 0, 0⟩ :=
  (C4_neutral_iff_zero_pain (fun _ => true) (fun _ => none) (fun _ => none)
    (fun _ _ h => nomatch h) (fun _ _ h => nomatch h)).1
    [⟨1, 1, "EEOC probe", "u"⟩] ⟨"", SignalType.neutral, 0, 0⟩ (by decide)

/-- A stored signal row as read back by the aggregator: the `signals`
columns that `get_company_pain_summary` uses (company, pain score,
summary, creation time; times are hour counts). -/
structure SignalRow where
  company_id : Nat
  pain_score : ℚ
  summary : String
  created_at : ℚ
deriving DecidableEq, Repr

/-- Modelled from the spec: the per-company reduction of the Pain
Aggregator (section 4.8, `get_company_pain_summary` in the missing
`db.py`) — max pain score together with the summary of the signal
achieving it, signal count, and newest-signal age = now − latest
created_at; a company with no in-window signal yields no row. -/
def summarizeCompany (now : ℚ) (cid : Nat) :
    List SignalRow → Option CompanyPainSummary
  | [] => none
  | s :: rest =>
    let best := rest.foldl
      (fun b t => if b.pain_score < t.pain_score then t else b) s
    let newest := rest.foldl (fun m t => max m t.created_at) s.created_at
    some { company_id := cid, max_pain_score := best.pain_score,
           max_pain_summary := best.summary, signal_count := rest.length + 1,
           newest_signal_age_hours := now - newest }

/-- Modelled from the spec: the unsorted per-company rows of
`GetPainSummary` (sections 4.8 and 6, missing `db.py`) — the signals of
the last `days` days are grouped per in-scope company and each group is
reduced. -/
def painRows (now days : ℚ) (companyIds : List Nat)
    (signals : List SignalRow) : List CompanyPainSummary :=
  companyIds.filterMap (fun cid =>
    summarizeCompany now cid (signals.filter (fun s =>
      s.company_id == cid && decide (now - 24 * days ≤ s.created_at))))

/-- The output order of section 4.8: higher max pain first; equal max
pain broken by smaller newest-signal age first. -/
def summaryOrder (a b : CompanyPainSummary) : Prop :=
  b.max_pain_score < a.max_pain_score ∨
    (a.max_pain_score = b.max_pain_score ∧
      a.newest_signal_age_hours ≤ b.newest_signal_age_hours)

instance summaryOrder.instDecidableRel : DecidableRel summaryOrder :=
  fun a b => by
    unfold summaryOrder
    infer_instance

instance summaryOrder.instIsTotal : IsTotal CompanyPainSummary summaryOrder :=
  ⟨by
    intro a b
    unfold summaryOrder
    rcases lt_trichotomy a.max_pain_score b.max_pain_score with h | h | h
    · exact Or.inr (Or.inl h)
    · rcases le_total a.newest_signal_age_hours b.newest_signal_age_hours with
        h' | h'
      · exact Or.inl (Or.inr ⟨h, h'⟩)
      · exact Or.inr (Or.inr ⟨h.symm, h'⟩)
    · exact Or.inl (Or.inl h)⟩

instance summaryOrder.instIsTrans : IsTrans CompanyPainSummary summaryOrder :=
  ⟨by
    intro a b c hab hbc
    unfold summaryOrder at *
    rcases hab with h1 | ⟨h1, h1'⟩ <;> rcases hbc with h2 | ⟨h2, h2'⟩
    · exact Or.inl (lt_trans h2 h1)
    · exact Or.inl (h2 ▸ h1)
    · exact Or.inl (h1 ▸ h2)
    · exact Or.inr ⟨h1.trans h2, h1'.trans h2'⟩⟩

/-- Modelled from the spec: `GetPainSummary` (sections 4.8 and 6, missing
`db.py`) — the per-company rows sorted by max pain score descending,
ties broken by smaller newest-signal age first. -/
def getPainSummary (now days : ℚ) (companyIds : List Nat)
    (signals : List SignalRow) : List CompanyPainSummary :=
  List.insertionSort summaryOrder (painRows now days companyIds signals)

/-- C5: every `GetPainSummary` result is sorted by max pain score
descending with equal scores ordered by smaller newest-signal age first,
and it is a permutation of the unsorted per-company rows (sorting drops
and invents nothing). -/
theorem C5_pain_summary_sorted (now days : ℚ) (companyIds : List Nat)
    (signals : List SignalRow) :
    (getPainSummary now days companyIds signals).Sorted summaryOrder ∧
    (getPainSummary now days companyIds signals).Perm
      (painRows now days companyIds signals) :=
  ⟨List.sorted_insertionSort summaryOrder (painRows now days companyIds signals),
   List.perm_insertionSort summaryOrder (painRows now days companyIds signals)⟩

end SalesIntel
